import Mathlib

/-!
Verification of the picture-frame override logic of the spline-to-web demo.

The repository contains three parallel implementations of the same feature:
a component-based React-Three-Fiber variant (`src/components/Scene.tsx`
together with the first `App` in the sources), a variant that reaches into
the Spline runtime's internal Three.js scene (second `App`), and a variant
that drives the Spline player API with a Three.js fallback (third `App`).

This file embeds, directly from the TypeScript source:
  * the fixed slot set `PICTURE_FRAMES` and the slot binding `FRAME_MESH_MAP`;
  * the synchronous reconcile effect of `Scene.tsx` (capture-once of original
    materials, apply override / restore original) as `reconcile`;
  * the ancestor-walking click handler of `Scene.tsx` as `mapEventTargetToSlot`;
  * the asynchronous texture-loading effect of the second `App`
    (`THREE.TextureLoader.load` with an unconditional completion callback and
    no error callback) as `runEffect` / `completeLoad` over event traces;
  * the Spline-API branch of `applyOverrides` of the third `App`
    (`updateTexture` guarded by try/catch with a `console.warn`) as
    `applyOverridesSpline`;
  * the React state operations `handleApplyImage`, `handleClearImage`,
    `handleClearAll`, `handleMeshClick`, including the reference-identity
    semantics of React's `Object.is` change detection on the `imageMap`
    state (modelled by an allocation counter `refId`).

JS string primitives used by the source (`String.prototype.trim`,
`String.prototype.startsWith`) are modelled at the character-list level so
that all definitions evaluate inside the kernel.
-/

/-- The eight fixed slot identifiers, `PICTURE_FRAMES` in the source. -/
def PICTURE_FRAMES : List String :=
  ["picture-1", "picture-2", "picture-3", "picture-4",
   "picture-5", "picture-6", "picture-7", "picture-8"]

/-- Slot Binding: frame group name to inner canvas mesh name,
`FRAME_MESH_MAP` in `Scene.tsx` and in the runtime variants. -/
def FRAME_MESH_MAP : List (String × String) :=
  [("picture-1", "Rectangle2"), ("picture-2", "Rectangle3"),
   ("picture-3", "Rectangle4"), ("picture-4", "Rectangle 41"),
   ("picture-5", "Rectangle5"), ("picture-6", "Rectangle6"),
   ("picture-7", "Rectangle7"), ("picture-8", "Rectangle 23")]

/-- The underlying scene-object names of the binding
(`Object.values(FRAME_MESH_MAP)`). -/
def meshNames : List String := FRAME_MESH_MAP.map Prod.snd

/-- Pointwise update of a string-keyed partial map; models both
JS object spread `{ ...prev, [k]: v }` (with `v = some url`) and
`delete next[k]` (with `v = none`), and `Map.prototype.set`. -/
def setEntry {α : Type} (f : String → Option α) (k : String) (v : Option α) :
    String → Option α :=
  fun n => if n = k then v else f n

/-- Character-list prefix test; `charsStart s p` is true when `p` is an
initial segment of `s`.  Kernel-computable model of the comparison done by
JS `String.prototype.startsWith`. -/
def charsStart : List Char → List Char → Bool
  | _, [] => true
  | [], _ :: _ => false
  | c :: cs, p :: ps => c == p && charsStart cs ps

/-- JS `s.startsWith(p)` on Lean strings. -/
def strStarts (s p : String) : Bool := charsStart s.data p.data

/-- The slot-naming convention test of the click handler in `Scene.tsx`:
`current.name?.startsWith('picture-')`. -/
def slotMatch (name : String) : Bool := strStarts name "picture-"

/-- The ancestor walk of `handleClick` in `Scene.tsx`: the chain of names
from the hit object up to the root is examined in order; the first name
matching the slot convention is returned, `none` models "the walk reached
the root and the callback was never invoked". -/
def mapEventTargetToSlot : List String → Option String
  | [] => none
  | n :: rest => if slotMatch n then some n else mapEventTargetToSlot rest

/-- JS `String.prototype.trim`: drop leading and trailing whitespace. -/
def jsTrim (s : String) : String :=
  String.mk (((s.data.dropWhile Char.isWhitespace).reverse.dropWhile
    Char.isWhitespace).reverse)

/-- User-interface operations that can change the `selectedFrame` React
state in the component-based `App`: a click routed through
`handleMeshClick`, one of the eight panel buttons (which map over
`PICTURE_FRAMES`), `handleClearImage`, and `handleClearAll`.
`handleApplyImage` never writes `selectedFrame` and needs no case. -/
inductive UiOp : Type where
  | clickMesh (name : String)
  | chooseButton (i : Fin PICTURE_FRAMES.length)
  | removeImage (frame : String)
  | removeAll

/-- One step of the `selectedFrame` state.  `clickMesh` models
`handleMeshClick`, which guards with `PICTURE_FRAMES.includes(name)`;
`removeImage` models `handleClearImage`, which resets the selection only
when it equals the cleared frame; `removeAll` models `handleClearAll`. -/
def uiStep (sel : Option String) : UiOp → Option String
  | .clickMesh name => if name ∈ PICTURE_FRAMES then some name else sel
  | .chooseButton i => some (PICTURE_FRAMES.get i)
  | .removeImage frame => if sel = some frame then none else sel
  | .removeAll => none

/-- The `selectedFrame` state after a sequence of UI operations, starting
from the initial `useState<string | null>(null)`. -/
def runUi (ops : List UiOp) : Option String := ops.foldl uiStep none

/-- The pieces of React state read and written by `handleApplyImage`:
`selectedFrame`, `imageMap` and the text field `inputUrl`. -/
structure PanelState where
  selectedFrame : Option String
  imageMap : String → Option String
  inputUrl : String

/-- `handleApplyImage` from the source:
`if (!selectedFrame || !inputUrl.trim()) return;` then
`setImageMap(prev => ({ ...prev, [selectedFrame]: inputUrl.trim() }))` and
`setInputUrl('')`.  JS falsiness of a nullable string is `null` or `""`. -/
def handleApplyImage (s : PanelState) : PanelState :=
  match s.selectedFrame with
  | none => s
  | some f =>
    if f = "" then s
    else if jsTrim s.inputUrl = "" then s
    else { s with imageMap := setEntry s.imageMap f (some (jsTrim s.inputUrl)),
                  inputUrl := "" }

/-- A snapshot of the `imageMap` React state together with its object
identity: React's change detection (`useEffect` dependency array) compares
snapshots with `Object.is`, i.e. reference equality.  `refId` models the
reference: every object literal evaluated by an updater allocates a fresh
one. -/
structure Snap where
  refId : Nat
  entries : String → Option String

/-- `handleApplyImage`'s updater `prev => ({ ...prev, [frame]: url })`:
always allocates a new object. -/
def snapApply (frame url : String) (s : Snap) : Snap :=
  { refId := s.refId + 1, entries := setEntry s.entries frame (some url) }

/-- `handleClearImage`'s updater: `const next = { ...prev }; delete
next[frame]; return next` — always allocates, even when `frame` is absent. -/
def snapClear (frame : String) (s : Snap) : Snap :=
  { refId := s.refId + 1, entries := setEntry s.entries frame none }

/-- `handleClearAll`: `setImageMap({})` — a fresh empty object literal. -/
def snapClearAll (s : Snap) : Snap :=
  { refId := s.refId + 1, entries := fun _ => none }

/-- React's `Object.is` on two `imageMap` snapshots: reference equality. -/
def snapEq (a b : Snap) : Bool := a.refId == b.refId

/-- The three mutating Override-Map operations of the store. -/
inductive StoreOp : Type where
  | apply (frame url : String)
  | clear (frame : String)
  | clearAll

/-- Apply one store operation to the current snapshot. -/
def stepOp (s : Snap) : StoreOp → Snap
  | .apply f u => snapApply f u s
  | .clear f => snapClear f s
  | .clearAll => snapClearAll s

/-- All snapshots produced during a run of store operations, starting
from (and including) the initial snapshot. -/
def historyFrom (s : Snap) : List StoreOp → List Snap
  | [] => [s]
  | op :: rest => s :: historyFrom (stepOp s op) rest

/-- The initial `useState<Record<string, string>>({})` snapshot. -/
def exSnap0 : Snap := { refId := 0, entries := fun _ => none }

/-- Concrete panel state for evaluating `handleApplyImage`. -/
def exPanel : PanelState :=
  { selectedFrame := some "picture-2",
    imageMap := fun _ => none,
    inputUrl := "  https://x/img.png  " }

/-- State touched by the override effect in `Scene.tsx`: the write-once
original-material cache `originalMaterialsRef` (keyed by mesh name) and,
for each mesh name, the current material of the located scene object of
that name (`none` when no object of that name is present in the loaded
graph, or the node is not a mesh). -/
@[ext]
structure SceneState (Mat : Type) where
  originals : String → Option Mat
  mats : String → Option Mat

/-- One step of the capture loop of the effect in `Scene.tsx`: for mesh
name `m`, if a mesh of that name is located and the cache has no entry for
it yet (`!originals.has(meshName)`), store its current material
(`originals.set(meshName, mesh.material)`). -/
def capture1 {Mat : Type} (s : SceneState Mat) (m : String) : SceneState Mat :=
  match s.mats m with
  | some cur =>
    if (s.originals m).isNone then
      { s with originals := setEntry s.originals m (some cur) }
    else s
  | none => s

/-- The capture loop: `for (const meshName of Object.values(FRAME_MESH_MAP))`. -/
def capturePhase {Mat : Type} (names : List String) (s : SceneState Mat) :
    SceneState Mat :=
  names.foldl capture1 s

/-- One step of the apply loop: for binding `(frameName, meshName)`, skip
when no mesh of that name is located (`continue`); otherwise assign the
override material when `materialOverrides[frameName]` exists, else assign
the cached original if one exists, else leave the mesh untouched. -/
def apply1 {Mat : Type} (o : String → Option Mat) (s : SceneState Mat)
    (b : String × String) : SceneState Mat :=
  match s.mats b.2 with
  | none => s
  | some _ =>
    match o b.1 with
    | some ov => { s with mats := setEntry s.mats b.2 (some ov) }
    | none =>
      match s.originals b.2 with
      | some org => { s with mats := setEntry s.mats b.2 (some org) }
      | none => s

/-- The apply loop: `for (const [frameName, meshName] of
Object.entries(FRAME_MESH_MAP))`. -/
def applyPhase {Mat : Type} (o : String → Option Mat) (L : List (String × String))
    (s : SceneState Mat) : SceneState Mat :=
  L.foldl (apply1 o) s

/-- The override effect of `Scene.tsx` (one reconciliation pass): the
capture loop over the bound mesh names followed by the apply/restore loop
over the bindings.  `o` is the `materialOverrides` prop: frame name to
already-resolved override material. -/
def reconcile {Mat : Type} (o : String → Option Mat) (s : SceneState Mat) :
    SceneState Mat :=
  applyPhase o FRAME_MESH_MAP (capturePhase meshNames s)

/-- The value assigned to a located mesh by the apply loop, as a function
of the override entry for its frame, the cached original and the current
material. -/
def overrideResult {Mat : Type} (ov : Option Mat) (org : Option Mat) (c : Mat) :
    Option Mat :=
  match ov with
  | some v => some v
  | none =>
    match org with
    | some w => some w
    | none => some c

/-- Concrete scene for witnesses: materials are strings; `Rectangle2` and
`Rectangle3` are present, everything else is absent; the cache starts
empty. -/
def exScene : SceneState String :=
  { originals := fun _ => none,
    mats := fun n =>
      if n = "Rectangle2" then some "paper"
      else if n = "Rectangle3" then some "red-6" else none }

/-- Concrete override map: `picture-1` carries a resolved override. -/
def exOv1 : String → Option String :=
  fun f => if f = "picture-1" then some "tex-u1" else none

/-- Empty override map (every slot cleared). -/
def exOvNone : String → Option String := fun _ => none

/-- Concrete override map: `picture-2` carries a resolved override. -/
def exOv2 : String → Option String :=
  fun f => if f = "picture-2" then some "tex-u2" else none

/-- Scene with `Rectangle2` missing but `Rectangle3` present. -/
def exScenePartial : SceneState String :=
  { originals := fun _ => none,
    mats := fun n => if n = "Rectangle3" then some "red-6" else none }

/-- State of the texture-override effect in the Spline-runtime variant of
`App` (the `useEffect` that uses `THREE.TextureLoader`): the write-once
original-material cache, each mesh's current material, the in-flight
texture loads `(meshName, url)` whose `onLoad` callback has not yet fired,
and the warnings logged so far.  The effect passes no error callback to
`loader.load` and contains no logging call, so nothing ever appends to
`warnings`, and a load whose fetch fails never completes. -/
structure LoadState (Mat : Type) where
  originals : String → Option Mat
  mats : String → Option Mat
  pending : List (String × String)
  warnings : List String

/-- One iteration of that effect body for binding `(frameName, meshName)`:
skip when the mesh is absent; capture the original material once; when the
override map has a URL for the frame, start a texture load
(`loader.load(imageUrl, cb)`) — the material is not assigned until the
callback fires; otherwise restore the cached original synchronously. -/
def effectStep {Mat : Type} (imageMap : String → Option String)
    (s : LoadState Mat) (b : String × String) : LoadState Mat :=
  match s.mats b.2 with
  | none => s
  | some cur =>
    let s1 := if (s.originals b.2).isNone
      then { s with originals := setEntry s.originals b.2 (some cur) }
      else s
    match imageMap b.1 with
    | some url => { s1 with pending := s1.pending ++ [(b.2, url)] }
    | none =>
      match s1.originals b.2 with
      | some org => { s1 with mats := setEntry s1.mats b.2 (some org) }
      | none => s1

/-- One run of the `useEffect` body over all bindings, with the `imageMap`
snapshot current at that time. -/
def runEffect {Mat : Type} (imageMap : String → Option String)
    (s : LoadState Mat) : LoadState Mat :=
  FRAME_MESH_MAP.foldl (effectStep imageMap) s

/-- Completion of an in-flight texture load: the `onLoad` callback builds a
material from the decoded texture (`derive url`) and assigns it to the
mesh unconditionally — the source compares nothing against the current
`imageMap` before `mesh.material = mat`, so the assignment also happens
when the slot's desired URL has changed since this load started. -/
def completeLoad {Mat : Type} (derive : String → Mat) (s : LoadState Mat)
    (m url : String) : LoadState Mat :=
  if (m, url) ∈ s.pending then
    { s with mats := setEntry s.mats m (some (derive url)),
             pending := s.pending.erase (m, url) }
  else s

/-- Events of the asynchronous texture-override system: an effect run with
the `imageMap` current at that time, or the completion of one in-flight
load.  Loads complete in an order chosen by the environment; a load whose
fetch fails never yields a `done` event because no error callback is
installed. -/
inductive AsyncEv : Type where
  | eff (imageMap : String → Option String)
  | done (mesh url : String)

/-- Run a trace of effect runs and load completions. -/
def runEvents {Mat : Type} (derive : String → Mat) (s : LoadState Mat) :
    List AsyncEv → LoadState Mat
  | [] => s
  | AsyncEv.eff im :: rest => runEvents derive (runEffect im s) rest
  | AsyncEv.done m u :: rest => runEvents derive (completeLoad derive s m u) rest

/-- Initial state for the asynchronous scenarios: `Rectangle2` present with
its original material, cache empty, no loads in flight. -/
def exLoadInit : LoadState String :=
  { originals := fun _ => none,
    mats := fun n => if n = "Rectangle2" then some "orig" else none,
    pending := [],
    warnings := [] }

/-- Override-map snapshot after `set("picture-1", "u1")`. -/
def exMapU1 : String → Option String :=
  fun f => if f = "picture-1" then some "u1" else none

/-- Override-map snapshot after `set("picture-1", "u2")`. -/
def exMapU2 : String → Option String :=
  fun f => if f = "picture-1" then some "u2" else none

/-- Texture decoding for the concrete runs: the material derived from a
URL is tagged with that URL. -/
def exDerive : String → String := fun u => "tex:" ++ u

/-- The out-of-order trace for C1: set `u1`, the effect runs; set `u2`,
the effect runs again; the `u2` load completes first; the stale `u1` load
completes last. -/
def exStaleTrace : List AsyncEv :=
  [AsyncEv.eff exMapU1, AsyncEv.eff exMapU2,
   AsyncEv.done "Rectangle2" "u2", AsyncEv.done "Rectangle2" "u1"]

/-- Override-map snapshot pointing `picture-1` at a URL whose fetch fails. -/
def exMapBad : String → Option String :=
  fun f => if f = "picture-1" then some "bad-url" else none

/-- State of the Spline-API branch of `applyOverrides` in the third `App`:
per mesh, the saved original texture data, the current texture data of the
mesh's texture layer (`none` when the object or its texture layer is
absent, in which case this branch is not taken), and the warnings logged
by `console.warn`. -/
structure TexState (Tex : Type) where
  originals : String → Option Tex
  tex : String → Option Tex
  warnings : List String

/-- Save-original-on-first-encounter: `if (!originals.has(meshName))`
store the layer's current texture data. -/
def texCapture {Tex : Type} (s : TexState Tex) (m : String) (cur : Tex) :
    TexState Tex :=
  if (s.originals m).isNone
  then { s with originals := setEntry s.originals m (some cur) }
  else s

/-- One iteration of the Spline-API branch for `(frameName, meshName)`:
save the original texture data on first encounter; when the override map
has a URL, `await textureLayer.updateTexture(imageUrl)` inside try/catch —
on success the layer shows the texture decoded from the URL
(`derive url`), on failure (`fetchOk url = false`) a warning naming the
mesh is logged and the layer is left unchanged; with no override, the
saved original data is written back.  The try/catch reduces a failure to
the log, so the step is total: nothing propagates. -/
def texStep {Tex : Type} (derive : String → Tex) (fetchOk : String → Bool)
    (imageMap : String → Option String) (s : TexState Tex)
    (b : String × String) : TexState Tex :=
  match s.tex b.2 with
  | none => s
  | some cur =>
    match imageMap b.1 with
    | some url =>
      if fetchOk url
      then { texCapture s b.2 cur with
               tex := setEntry (texCapture s b.2 cur).tex b.2 (some (derive url)) }
      else { texCapture s b.2 cur with
               warnings := (texCapture s b.2 cur).warnings
                 ++ ["updateTexture failed for " ++ b.2] }
    | none =>
      match (texCapture s b.2 cur).originals b.2 with
      | some od =>
          { texCapture s b.2 cur with
              tex := setEntry (texCapture s b.2 cur).tex b.2 (some od) }
      | none => texCapture s b.2 cur

/-- The Spline-API pass of `applyOverrides` over all bindings. -/
def applyOverridesSpline {Tex : Type} (derive : String → Tex)
    (fetchOk : String → Bool) (imageMap : String → Option String)
    (s : TexState Tex) : TexState Tex :=
  FRAME_MESH_MAP.foldl (texStep derive fetchOk imageMap) s

/-- The texture a located layer ends up showing after the pass, as a
function of the frame's override entry, the fetch outcome, the saved
original and the current texture. -/
def texResult {Tex : Type} (derive : String → Tex) (fetchOk : String → Bool)
    (u : Option String) (org : Option Tex) (c : Tex) : Option Tex :=
  match u with
  | some url => if fetchOk url then some (derive url) else some c
  | none =>
    match org with
    | some od => some od
    | none => some c

/-- Concrete texture state: `Rectangle2` and `Rectangle3` carry texture
layers with their original data; nothing saved yet, no warnings. -/
def exTex : TexState String :=
  { originals := fun _ => none,
    tex := fun n =>
      if n = "Rectangle2" then some "orig-2"
      else if n = "Rectangle3" then some "orig-3" else none,
    warnings := [] }

/-- Override map requesting `bad-url` on `picture-1` and `good-url` on
`picture-2`. -/
def exMapMix : String → Option String :=
  fun f =>
    if f = "picture-1" then some "bad-url"
    else if f = "picture-2" then some "good-url" else none

/-- Fetch oracle for the witness: only `good-url` succeeds. -/
def exFetchOk : String → Bool := fun u => u == "good-url"

/-! ## Helper lemmas about snapshots -/

theorem stepOp_refId (s : Snap) (op : StoreOp) : (stepOp s op).refId = s.refId + 1 := by
  cases op <;> rfl

theorem mem_historyFrom_refId (ops : List StoreOp) (s a : Snap)
    (h : a ∈ historyFrom s ops) : a = s ∨ s.refId < a.refId := by
  induction ops generalizing s with
  | nil =>
    simp only [historyFrom, List.mem_singleton] at h
    exact Or.inl h
  | cons op t ih =>
    simp only [historyFrom, List.mem_cons] at h
    rcases h with h | h
    · exact Or.inl h
    · rcases ih (stepOp s op) h with h2 | h2
      · right; rw [h2, stepOp_refId]; omega
      · right; rw [stepOp_refId] at h2; omega

theorem historyFrom_refId_inj (ops : List StoreOp) (s a b : Snap)
    (ha : a ∈ historyFrom s ops) (hb : b ∈ historyFrom s ops)
    (h : a.refId = b.refId) : a = b := by
  induction ops generalizing s with
  | nil =>
    simp only [historyFrom, List.mem_singleton] at ha hb
    rw [ha, hb]
  | cons op t ih =>
    simp only [historyFrom, List.mem_cons] at ha hb
    rcases ha with ha | ha <;> rcases hb with hb | hb
    · rw [ha, hb]
    · exfalso
      have hlt : s.refId < b.refId := by
        rcases mem_historyFrom_refId t (stepOp s op) b hb with h2 | h2
        · rw [h2, stepOp_refId]; omega
        · rw [stepOp_refId] at h2; omega
      rw [ha] at h; omega
    · exfalso
      have hlt : s.refId < a.refId := by
        rcases mem_historyFrom_refId t (stepOp s op) a ha with h2 | h2
        · rw [h2, stepOp_refId]; omega
        · rw [stepOp_refId] at h2; omega
      rw [hb] at h; omega
    · exact ih (stepOp s op) ha hb

/-! ## Claim theorems: C4, C8, C9, C10 -/

/-- C4 (confirmed): `mapEventTargetToSlot` walks the ancestor chain
starting at the hit node itself and returns the slot identifier of the
first-encountered ancestor whose name begins with `"picture-"`; it returns
"no slot" (`none`, no callback invoked) when the walk reaches the root
without a match; and a hit node three levels below a group named
`"picture-5"` maps to `"picture-5"`. -/
theorem mapEventTargetToSlot_spec (pre : List String) (m : String) (post : List String)
    (hpre : ∀ x ∈ pre, slotMatch x = false) (hm : slotMatch m = true) :
    mapEventTargetToSlot (pre ++ m :: post) = some m ∧
    (∀ chain : List String, (∀ x ∈ chain, slotMatch x = false) →
      mapEventTargetToSlot chain = none) ∧
    mapEventTargetToSlot
      ["canvas-mesh", "mat-group", "frame-box", "picture-5", "Scene Root"]
      = some "picture-5" := by
  refine ⟨?_, ?_, by decide⟩
  · induction pre with
    | nil => simp [mapEventTargetToSlot, hm]
    | cons a t ih =>
      have ha : slotMatch a = false := hpre a (List.mem_cons_self a t)
      simp only [List.cons_append, mapEventTargetToSlot, ha, Bool.false_eq_true,
        if_false]
      exact ih (fun x hx => hpre x (List.mem_cons_of_mem a hx))
  · intro chain hchain
    induction chain with
    | nil => rfl
    | cons a t ih =>
      have ha : slotMatch a = false := hchain a (List.mem_cons_self a t)
      simp only [mapEventTargetToSlot, ha, Bool.false_eq_true, if_false]
      exact ih (fun x hx => hchain x (List.mem_cons_of_mem a hx))

/-- Witness for C4: a concrete hit chain with one non-matching ancestor
below `"picture-2"`. -/
theorem mapEventTargetToSlot_spec_witness :
    mapEventTargetToSlot ["Rectangle3", "picture-2", "root"] = some "picture-2" :=
  (mapEventTargetToSlot_spec ["Rectangle3"] "picture-2" ["root"]
    (by decide) (by decide)).1

/-- C8 counterexample: the claim "two snapshots compare equal under the
change-detection comparison iff they are semantically identical" is false:
`handleClearImage("picture-1")` on the empty map allocates a fresh object
whose contents are identical to the previous snapshot, yet the two compare
unequal under `Object.is`. -/
theorem snapshot_iff_fails :
    ¬ ((snapEq (snapClear "picture-1" exSnap0) exSnap0 = true) ↔
        (snapClear "picture-1" exSnap0).entries = exSnap0.entries) := by
  intro h
  have h2 : (snapClear "picture-1" exSnap0).entries = exSnap0.entries := by
    funext n
    simp only [snapClear, setEntry, exSnap0]
    split <;> rfl
  have h3 := h.mpr h2
  simp [snapEq, snapClear, exSnap0] at h3

/-- C8 (amended): the comparison is sound but not complete.  Within any
run of store operations, two snapshots that compare equal under the
reference comparison are the same snapshot, hence semantically identical;
but every operation (`apply`, `clear`, `clearAll`) allocates a fresh
snapshot that compares unequal to its predecessor even when the contents
are unchanged. -/
theorem snapshot_comparison_sound (s0 : Snap) (ops : List StoreOp) (a b : Snap)
    (op : StoreOp)
    (ha : a ∈ historyFrom s0 ops) (hb : b ∈ historyFrom s0 ops)
    (heq : snapEq a b = true) :
    a.entries = b.entries ∧ snapEq (stepOp a op) a = false := by
  constructor
  · have hr : a.refId = b.refId := by simpa [snapEq] using heq
    rw [historyFrom_refId_inj ops s0 a b ha hb hr]
  · have h1 : (stepOp a op).refId = a.refId + 1 := stepOp_refId a op
    simp only [snapEq, h1]
    simp [Nat.beq_eq_true_eq]

/-- Witness for C8's amended theorem at the initial snapshot and the empty
operation list. -/
theorem snapshot_comparison_sound_witness :
    exSnap0.entries = exSnap0.entries ∧
    snapEq (stepOp exSnap0 StoreOp.clearAll) exSnap0 = false :=
  snapshot_comparison_sound exSnap0 [] exSnap0 exSnap0 StoreOp.clearAll
    (by simp [historyFrom]) (by simp [historyFrom]) rfl

theorem uiStep_foldl_mem (ops : List UiOp) :
    ∀ (sel : Option String), (∀ n, sel = some n → n ∈ PICTURE_FRAMES) →
      ∀ n, ops.foldl uiStep sel = some n → n ∈ PICTURE_FRAMES := by
  induction ops with
  | nil =>
    intro sel hsel n hn
    exact hsel n hn
  | cons op t ih =>
    intro sel hsel n hn
    refine ih (uiStep sel op) ?_ n hn
    intro k hk
    cases op with
    | clickMesh nm =>
      by_cases hmem : nm ∈ PICTURE_FRAMES
      · simp only [uiStep, if_pos hmem, Option.some.injEq] at hk
        rw [← hk]; exact hmem
      · simp only [uiStep, if_neg hmem] at hk
        exact hsel k hk
    | chooseButton i =>
      simp only [uiStep, Option.some.injEq] at hk
      rw [← hk]
      exact List.get_mem PICTURE_FRAMES i.1 i.2
    | removeImage fr =>
      simp only [uiStep] at hk
      split at hk
      · cases hk
      · exact hsel k hk
    | removeAll =>
      simp only [uiStep] at hk
      cases hk

/-- C9 (confirmed): in the component-based implementation the selected
frame is always `null` or a member of the fixed eight-slot set: every
reachable `selectedFrame` value other than `none` is an element of
`PICTURE_FRAMES`, over every sequence of mesh clicks, panel-button
selections, per-frame clears and clear-alls. -/
theorem selectedFrame_invariant (ops : List UiOp) (name : String)
    (h : runUi ops = some name) : name ∈ PICTURE_FRAMES :=
  uiStep_foldl_mem ops none (fun n hn => by cases hn) name h

/-- Witness for C9: a single in-scene click on `"picture-3"`. -/
theorem selectedFrame_invariant_witness : "picture-3" ∈ PICTURE_FRAMES :=
  selectedFrame_invariant [UiOp.clickMesh "picture-3"] "picture-3" (by decide)

/-- C10 (confirmed): applying with no frame selected, or with an
empty/whitespace-only URL, leaves the whole panel state (Override Map,
selected frame, input field) unchanged; a successful apply stores the
trimmed URL under the selected frame, clears the input field, keeps the
selection, and leaves every other slot's entry unchanged. -/
theorem handleApplyImage_spec (s : PanelState) :
    (s.selectedFrame = none → handleApplyImage s = s) ∧
    (jsTrim s.inputUrl = "" → handleApplyImage s = s) ∧
    (∀ f, s.selectedFrame = some f → f ≠ "" → jsTrim s.inputUrl ≠ "" →
      (handleApplyImage s).imageMap f = some (jsTrim s.inputUrl) ∧
      (handleApplyImage s).inputUrl = "" ∧
      (handleApplyImage s).selectedFrame = some f ∧
      ∀ g, g ≠ f → (handleApplyImage s).imageMap g = s.imageMap g) := by
  refine ⟨?_, ?_, ?_⟩
  · intro h
    simp [handleApplyImage, h]
  · intro h
    unfold handleApplyImage
    cases hsel : s.selectedFrame with
    | none => rfl
    | some f => simp [h]
  · intro f hf hne htrim
    have hred : handleApplyImage s =
        { s with imageMap := setEntry s.imageMap f (some (jsTrim s.inputUrl)),
                 inputUrl := "" } := by
      simp only [handleApplyImage, hf]
      rw [if_neg hne, if_neg htrim]
    rw [hred]
    refine ⟨by simp [setEntry], rfl, hf, ?_⟩
    intro g hg
    simp [setEntry, hg]

/-- Witness for C10: a successful apply of a padded URL to `"picture-2"`. -/
theorem handleApplyImage_spec_witness :
    (handleApplyImage exPanel).imageMap "picture-2" = some "https://x/img.png" ∧
    (handleApplyImage exPanel).inputUrl = "" := by
  have h := (handleApplyImage_spec exPanel).2.2 "picture-2" rfl (by decide) (by decide)
  refine ⟨?_, h.2.1⟩
  rw [h.1]
  decide

/-! ## Helper lemmas about the reconcile pass -/

theorem capture1_mats {Mat : Type} (s : SceneState Mat) (m : String) :
    (capture1 s m).mats = s.mats := by
  cases hcur : s.mats m with
  | none => simp [capture1, hcur]
  | some cur =>
    simp only [capture1, hcur]
    split <;> rfl

theorem capturePhase_mats {Mat : Type} :
    ∀ (names : List String) (s : SceneState Mat),
      (capturePhase names s).mats = s.mats := by
  intro names
  induction names with
  | nil => intro s; rfl
  | cons a t ih =>
    intro s
    show (capturePhase t (capture1 s a)).mats = s.mats
    rw [ih, capture1_mats]

theorem capture1_originals_mono {Mat : Type} {s : SceneState Mat} {m n : String}
    {v : Mat} (h : s.originals n = some v) : (capture1 s m).originals n = some v := by
  cases hcur : s.mats m with
  | none => simp [capture1, hcur]; exact h
  | some cur =>
    simp only [capture1, hcur]
    split
    · rename_i hnone
      simp only [setEntry]
      split
      · rename_i hnm
        rw [hnm] at h
        rw [h] at hnone
        simp at hnone
      · exact h
    · exact h

theorem capturePhase_originals_mono {Mat : Type} {n : String} {v : Mat} :
    ∀ (names : List String) (s : SceneState Mat), s.originals n = some v →
      (capturePhase names s).originals n = some v := by
  intro names
  induction names with
  | nil => intro s h; exact h
  | cons a t ih =>
    intro s h
    show (capturePhase t (capture1 s a)).originals n = some v
    exact ih _ (capture1_originals_mono h)

theorem capture1_originals_ne {Mat : Type} (s : SceneState Mat) {m n : String}
    (hne : n ≠ m) : (capture1 s m).originals n = s.originals n := by
  cases hcur : s.mats m with
  | none => simp [capture1, hcur]
  | some cur =>
    simp only [capture1, hcur]
    split
    · simp [setEntry, hne]
    · rfl

theorem capture1_originals_absent {Mat : Type} (s : SceneState Mat) {m n : String}
    (habs : s.mats n = none) : (capture1 s m).originals n = s.originals n := by
  by_cases hnm : n = m
  · subst hnm
    simp [capture1, habs]
  · exact capture1_originals_ne s hnm

theorem capturePhase_originals_absent {Mat : Type} {n : String} :
    ∀ (names : List String) (s : SceneState Mat), s.mats n = none →
      (capturePhase names s).originals n = s.originals n := by
  intro names
  induction names with
  | nil => intro s _; rfl
  | cons a t ih =>
    intro s habs
    show (capturePhase t (capture1 s a)).originals n = s.originals n
    rw [ih _ (by rw [capture1_mats]; exact habs), capture1_originals_absent s habs]

theorem capturePhase_originals_notmem {Mat : Type} {n : String} :
    ∀ (names : List String) (s : SceneState Mat), n ∉ names →
      (capturePhase names s).originals n = s.originals n := by
  intro names
  induction names with
  | nil => intro s _; rfl
  | cons a t ih =>
    intro s hnm
    have hna : n ≠ a := fun h => hnm (h ▸ List.mem_cons_self a t)
    have hnt : n ∉ t := fun h => hnm (List.mem_cons_of_mem a h)
    show (capturePhase t (capture1 s a)).originals n = s.originals n
    rw [ih _ hnt, capture1_originals_ne s hna]

theorem capturePhase_captures {Mat : Type} {n : String} {c : Mat} :
    ∀ (names : List String) (s : SceneState Mat), n ∈ names →
      s.originals n = none → s.mats n = some c →
      (capturePhase names s).originals n = some c := by
  intro names
  induction names with
  | nil => intro s hmem _ _; cases hmem
  | cons a t ih =>
    intro s hmem hnone hmat
    show (capturePhase t (capture1 s a)).originals n = some c
    by_cases hna : a = n
    · subst hna
      have h1 : (capture1 s a).originals a = some c := by
        simp [capture1, hmat, hnone, setEntry]
      exact capturePhase_originals_mono t _ h1
    · have h1 : (capture1 s a).originals n = none := by
        rw [capture1_originals_ne s (fun hh => hna hh.symm)]
        exact hnone
      have h2 : (capture1 s a).mats n = some c := by
        rw [capture1_mats]; exact hmat
      have hmem2 : n ∈ t := by
        rcases List.mem_cons.mp hmem with h | h
        · exact absurd h.symm hna
        · exact h
      exact ih _ hmem2 h1 h2

theorem apply1_originals {Mat : Type} (o : String → Option Mat) (s : SceneState Mat)
    (b : String × String) : (apply1 o s b).originals = s.originals := by
  cases h1 : s.mats b.2 with
  | none => simp [apply1, h1]
  | some cur =>
    cases h2 : o b.1 with
    | some ov => simp [apply1, h1, h2]
    | none =>
      cases h3 : s.originals b.2 with
      | some org => simp [apply1, h1, h2, h3]
      | none => simp [apply1, h1, h2, h3]

theorem applyPhase_originals {Mat : Type} (o : String → Option Mat) :
    ∀ (L : List (String × String)) (s : SceneState Mat),
      (applyPhase o L s).originals = s.originals := by
  intro L
  induction L with
  | nil => intro s; rfl
  | cons b t ih =>
    intro s
    show (applyPhase o t (apply1 o s b)).originals = s.originals
    rw [ih, apply1_originals]

theorem apply1_mats_ne {Mat : Type} (o : String → Option Mat) (s : SceneState Mat)
    (b : String × String) {n : String} (hne : n ≠ b.2) :
    (apply1 o s b).mats n = s.mats n := by
  cases h1 : s.mats b.2 with
  | none => simp [apply1, h1]
  | some cur =>
    cases h2 : o b.1 with
    | some ov => simp [apply1, h1, h2, setEntry, hne]
    | none =>
      cases h3 : s.originals b.2 with
      | some org => simp [apply1, h1, h2, h3, setEntry, hne]
      | none => simp [apply1, h1, h2, h3]

theorem apply1_mats_absent {Mat : Type} (o : String → Option Mat) (s : SceneState Mat)
    (b : String × String) {n : String} (habs : s.mats n = none) :
    (apply1 o s b).mats n = none := by
  by_cases hne : n = b.2
  · subst hne
    simp [apply1, habs]
  · rw [apply1_mats_ne o s b hne]
    exact habs

theorem applyPhase_mats_absent {Mat : Type} (o : String → Option Mat) {n : String} :
    ∀ (L : List (String × String)) (s : SceneState Mat), s.mats n = none →
      (applyPhase o L s).mats n = none := by
  intro L
  induction L with
  | nil => intro s habs; exact habs
  | cons b t ih =>
    intro s habs
    show (applyPhase o t (apply1 o s b)).mats n = none
    exact ih _ (apply1_mats_absent o s b habs)

theorem applyPhase_untouched {Mat : Type} (o : String → Option Mat) {n : String} :
    ∀ (L : List (String × String)) (s : SceneState Mat),
      (∀ q ∈ L, q.2 ≠ n) → (applyPhase o L s).mats n = s.mats n := by
  intro L
  induction L with
  | nil => intro s _; rfl
  | cons b t ih =>
    intro s hq
    show (applyPhase o t (apply1 o s b)).mats n = s.mats n
    rw [ih _ (fun q hqt => hq q (List.mem_cons_of_mem b hqt)),
      apply1_mats_ne o s b (fun h => hq b (List.mem_cons_self b t) h.symm)]

theorem applyPhase_result {Mat : Type} (o : String → Option Mat) {f n : String} :
    ∀ (L : List (String × String)) (s : SceneState Mat) (c : Mat),
      (f, n) ∈ L → (∀ q ∈ L, q.2 = n → q = (f, n)) → s.mats n = some c →
      (applyPhase o L s).mats n = overrideResult (o f) (s.originals n) c := by
  intro L
  induction L with
  | nil =>
    intro s c hmem _ _
    cases hmem
  | cons b t ih =>
    intro s c hmem huniq hcur
    show (applyPhase o t (apply1 o s b)).mats n = overrideResult (o f) (s.originals n) c
    by_cases hb : b.2 = n
    · have hbfn : b = (f, n) := huniq b (List.mem_cons_self b t) hb
      subst hbfn
      have horig : (apply1 o s (f, n)).originals = s.originals := apply1_originals o s (f, n)
      have huniq2 : ∀ q ∈ t, q.2 = n → q = (f, n) :=
        fun q hq hq2 => huniq q (List.mem_cons_of_mem _ hq) hq2
      have hnotouch : (f, n) ∉ t → (applyPhase o t (apply1 o s (f, n))).mats n
          = (apply1 o s (f, n)).mats n := by
        intro hnm
        refine applyPhase_untouched o t _ ?_
        intro q hqt hq2
        exact hnm (huniq2 q hqt hq2 ▸ hqt)
      cases hof : o f with
      | some ov =>
        have hstep : (apply1 o s (f, n)).mats n = some ov := by
          simp [apply1, hcur, hof, setEntry]
        by_cases hmem2 : (f, n) ∈ t
        · rw [ih _ ov hmem2 huniq2 hstep, horig]
          simp [overrideResult, hof]
        · rw [hnotouch hmem2, hstep]
          simp [overrideResult, hof]
      | none =>
        cases horg : s.originals n with
        | some org =>
          have hstep : (apply1 o s (f, n)).mats n = some org := by
            simp [apply1, hcur, hof, horg, setEntry]
          by_cases hmem2 : (f, n) ∈ t
          · rw [ih _ org hmem2 huniq2 hstep, horig]
            simp [overrideResult, hof, horg]
          · rw [hnotouch hmem2, hstep]
            simp [overrideResult, hof, horg]
        | none =>
          have hstep : (apply1 o s (f, n)).mats n = some c := by
            simp [apply1, hcur, hof, horg]
          by_cases hmem2 : (f, n) ∈ t
          · rw [ih _ c hmem2 huniq2 hstep, horig, hof, horg]
          · rw [hnotouch hmem2, hstep]
            simp [overrideResult, hof, horg]
    · have hmem2 : (f, n) ∈ t := by
        rcases List.mem_cons.mp hmem with h | h
        · exact absurd (by rw [← h]) hb
        · exact h
      have h1 : (apply1 o s b).mats n = some c := by
        rw [apply1_mats_ne o s b (fun hh => hb hh.symm)]
        exact hcur
      rw [ih _ c hmem2 (fun q hq hq2 => huniq q (List.mem_cons_of_mem _ hq) hq2) h1,
        apply1_originals o s b]

theorem reconcile_originals_eq {Mat : Type} (o : String → Option Mat)
    (s : SceneState Mat) :
    (reconcile o s).originals = (capturePhase meshNames s).originals := by
  show (applyPhase o FRAME_MESH_MAP (capturePhase meshNames s)).originals = _
  rw [applyPhase_originals]

theorem reconcile_originals_mono {Mat : Type} (o : String → Option Mat)
    {s : SceneState Mat} {n : String} {v : Mat} (h : s.originals n = some v) :
    (reconcile o s).originals n = some v := by
  rw [reconcile_originals_eq]
  exact capturePhase_originals_mono meshNames s h

theorem reconcile_fold_originals_mono {Mat : Type} {n : String} {v : Mat} :
    ∀ (os : List (String → Option Mat)) (s : SceneState Mat),
      s.originals n = some v →
      (os.foldl (fun st o2 => reconcile o2 st) s).originals n = some v := by
  intro os
  induction os with
  | nil => intro s h; exact h
  | cons o2 t ih =>
    intro s h
    exact ih _ (reconcile_originals_mono o2 h)

theorem reconcile_located_originals_isSome {Mat : Type} (o : String → Option Mat)
    (s : SceneState Mat) {n : String} {c : Mat}
    (hmem : n ∈ meshNames) (hs : s.mats n = some c) :
    ∃ w, (reconcile o s).originals n = some w := by
  rw [reconcile_originals_eq]
  cases hv : s.originals n with
  | some v => exact ⟨v, capturePhase_originals_mono meshNames s hv⟩
  | none => exact ⟨c, capturePhase_captures meshNames s hmem hv hs⟩

theorem reconcile_mats_located {Mat : Type} (o : String → Option Mat)
    (s : SceneState Mat) {f n : String} {c w : Mat}
    (hmem : (f, n) ∈ FRAME_MESH_MAP)
    (huniq : ∀ q ∈ FRAME_MESH_MAP, q.2 = n → q = (f, n))
    (hs : s.mats n = some c)
    (hw : (capturePhase meshNames s).originals n = some w) :
    (reconcile o s).mats n = overrideResult (o f) (some w) c := by
  show (applyPhase o FRAME_MESH_MAP (capturePhase meshNames s)).mats n = _
  rw [applyPhase_result o FRAME_MESH_MAP _ c hmem huniq
    (by rw [capturePhase_mats]; exact hs), hw]

theorem reconcile_mats_absent {Mat : Type} (o : String → Option Mat)
    (s : SceneState Mat) {n : String} (habs : s.mats n = none) :
    (reconcile o s).mats n = none := by
  show (applyPhase o FRAME_MESH_MAP (capturePhase meshNames s)).mats n = none
  exact applyPhase_mats_absent o FRAME_MESH_MAP _ (by rw [capturePhase_mats]; exact habs)

theorem meshNames_nodup : (FRAME_MESH_MAP.map Prod.snd).Nodup := by decide

/-! ## Claim theorems: C2, C3, C5, C7 -/

/-- C2 (confirmed): the Original Appearance Cache is write-once.  (a) An
existing entry survives any further sequence of reconciliation passes
unchanged, so no later pass — in particular none that has already applied
an override material to the object — can replace the cached original.
(b) On the first pass in which the object is located while no entry
exists, the entry is set to the object's current material, read before any
mutation of that pass.  (c) A pass in which the object is absent writes no
entry. -/
theorem originals_write_once {Mat : Type} (o : String → Option Mat)
    (s : SceneState Mat) (n : String) :
    (∀ (v : Mat) (os : List (String → Option Mat)), s.originals n = some v →
      (os.foldl (fun st o2 => reconcile o2 st) s).originals n = some v) ∧
    (∀ c : Mat, n ∈ meshNames → s.originals n = none → s.mats n = some c →
      (reconcile o s).originals n = some c) ∧
    (s.mats n = none → (reconcile o s).originals n = s.originals n) := by
  refine ⟨?_, ?_, ?_⟩
  · intro v os h
    exact reconcile_fold_originals_mono os s h
  · intro c hmem hnone hmat
    rw [reconcile_originals_eq]
    exact capturePhase_captures meshNames s hmem hnone hmat
  · intro habs
    rw [reconcile_originals_eq]
    exact capturePhase_originals_absent meshNames s habs

/-- Witness for C2: the first reconciliation captures the pre-override
`"paper"` material of `Rectangle2`. -/
theorem originals_write_once_witness :
    (reconcile exOv1 exScene).originals "Rectangle2" = some "paper" :=
  (originals_write_once exOv1 exScene "Rectangle2").2.1 "paper"
    (by decide) rfl (by decide)

/-- C3 (confirmed): for a bound slot whose object is located, overriding
(`set(s, u1)` resolved to material `ov`), reconciling, then clearing and
reconciling again assigns the mesh exactly the material value that was
cached before the override was applied — the identical cached value, not a
re-derived one. -/
theorem set_clear_restores_original {Mat : Type} (o1 o2 : String → Option Mat)
    (s : SceneState Mat) (f m : String) (m0 ov : Mat)
    (hmem : (f, m) ∈ FRAME_MESH_MAP)
    (huniq : ∀ q ∈ FRAME_MESH_MAP, q.2 = m → q = (f, m))
    (hnone : s.originals m = none) (hmat : s.mats m = some m0)
    (ho1 : o1 f = some ov) (ho2 : o2 f = none) :
    (reconcile o1 s).originals m = some m0 ∧
    (reconcile o2 (reconcile o1 s)).mats m = some m0 := by
  have hmemN : m ∈ meshNames := List.mem_map_of_mem Prod.snd hmem
  have hcap1 : (capturePhase meshNames s).originals m = some m0 :=
    capturePhase_captures meshNames s hmemN hnone hmat
  have hs1orig : (reconcile o1 s).originals m = some m0 := by
    rw [reconcile_originals_eq]
    exact hcap1
  refine ⟨hs1orig, ?_⟩
  have hs1m : (reconcile o1 s).mats m = some ov := by
    rw [reconcile_mats_located o1 s hmem huniq hmat hcap1]
    simp [overrideResult, ho1]
  have hcap2 : (capturePhase meshNames (reconcile o1 s)).originals m = some m0 :=
    capturePhase_originals_mono meshNames _ hs1orig
  rw [reconcile_mats_located o2 (reconcile o1 s) hmem huniq hs1m hcap2]
  simp [overrideResult, ho2]

/-- Witness for C3: slot `picture-1` / mesh `Rectangle2`, original material
`"paper"`, override `"tex-u1"`, then cleared. -/
theorem set_clear_restores_original_witness :
    (reconcile exOv1 exScene).originals "Rectangle2" = some "paper" ∧
    (reconcile exOvNone (reconcile exOv1 exScene)).mats "Rectangle2" = some "paper" :=
  set_clear_restores_original exOv1 exOvNone exScene "picture-1" "Rectangle2"
    "paper" "tex-u1" (by decide) (by decide) rfl (by decide) (by decide) rfl

/-- C5 (confirmed): a reconciliation pass over a scene in which a bound
slot's object is absent leaves that slot's state completely untouched (no
material assigned, no cache entry written) and still processes every other
slot normally — here, the other slot receives its override material.  The
pass is a total function, so the missing object is in particular not fatal
to it. -/
theorem missing_slot_skipped {Mat : Type} (o : String → Option Mat)
    (s : SceneState Mat) (f m f2 m2 : String) (c2 ov2 : Mat)
    (hmem : (f, m) ∈ FRAME_MESH_MAP)
    (habs : s.mats m = none)
    (hmem2 : (f2, m2) ∈ FRAME_MESH_MAP)
    (huniq2 : ∀ q ∈ FRAME_MESH_MAP, q.2 = m2 → q = (f2, m2))
    (hmat2 : s.mats m2 = some c2) (ho2 : o f2 = some ov2) :
    (reconcile o s).mats m = none ∧
    (reconcile o s).originals m = s.originals m ∧
    (reconcile o s).mats m2 = some ov2 := by
  refine ⟨reconcile_mats_absent o s habs, ?_, ?_⟩
  · rw [reconcile_originals_eq]
    exact capturePhase_originals_absent meshNames s habs
  · have hcap2 : (capturePhase meshNames s).originals m2 = some c2 ∨
        ∃ w, (capturePhase meshNames s).originals m2 = some w := by
      right
      cases hv : s.originals m2 with
      | some v => exact ⟨v, capturePhase_originals_mono meshNames s hv⟩
      | none =>
        exact ⟨c2, capturePhase_captures meshNames s
          (List.mem_map_of_mem Prod.snd hmem2) hv hmat2⟩
    rcases hcap2 with h | ⟨w, hw⟩
    · rw [reconcile_mats_located o s hmem2 huniq2 hmat2 h]
      simp [overrideResult, ho2]
    · rw [reconcile_mats_located o s hmem2 huniq2 hmat2 hw]
      simp [overrideResult, ho2]

/-- Witness for C5: `Rectangle2` absent, `Rectangle3` present with an
override on `picture-2`. -/
theorem missing_slot_skipped_witness :
    (reconcile exOv2 exScenePartial).mats "Rectangle2" = none ∧
    (reconcile exOv2 exScenePartial).originals "Rectangle2" = none ∧
    (reconcile exOv2 exScenePartial).mats "Rectangle3" = some "tex-u2" :=
  missing_slot_skipped exOv2 exScenePartial "picture-1" "Rectangle2"
    "picture-2" "Rectangle3" "red-6" "tex-u2"
    (by decide) rfl (by decide) (by decide) (by decide) (by decide)

/-- C7 (confirmed): reconciliation is idempotent: with the override map and
the external scene unchanged, running the pass a second time changes
neither any scene object's material nor the Original Appearance Cache —
the full reconciler state after the second run equals the state after the
first. -/
theorem reconcile_idempotent {Mat : Type} (o : String → Option Mat)
    (s : SceneState Mat) : reconcile o (reconcile o s) = reconcile o s := by
  apply SceneState.ext
  · rw [reconcile_originals_eq]
    funext n
    cases hc : s.mats n with
    | none =>
      exact capturePhase_originals_absent meshNames _ (reconcile_mats_absent o s hc)
    | some c =>
      by_cases hmem : n ∈ meshNames
      · rcases reconcile_located_originals_isSome o s hmem hc with ⟨w, hw⟩
        rw [capturePhase_originals_mono meshNames _ hw, hw]
      · exact capturePhase_originals_notmem meshNames _ hmem
  · funext n
    by_cases hmem : n ∈ meshNames
    · rcases List.mem_map.mp hmem with ⟨p, hp, hp2⟩
      have hmemp : (p.1, n) ∈ FRAME_MESH_MAP := by
        rw [← hp2]
        exact hp
      have huniq : ∀ q ∈ FRAME_MESH_MAP, q.2 = n → q = (p.1, n) := by
        intro q hq hq2
        refine List.inj_on_of_nodup_map meshNames_nodup hq hmemp ?_
        exact hq2
      cases hc : s.mats n with
      | none =>
        rw [reconcile_mats_absent o _ (reconcile_mats_absent o s hc),
          reconcile_mats_absent o s hc]
      | some c =>
        rcases reconcile_located_originals_isSome o s hmem hc with ⟨w, hw0⟩
        have hw1 : (capturePhase meshNames s).originals n = some w := by
          rw [reconcile_originals_eq] at hw0
          exact hw0
        have h2 : (reconcile o s).mats n = overrideResult (o p.1) (some w) c :=
          reconcile_mats_located o s hmemp huniq hc hw1
        have hw2 : (capturePhase meshNames (reconcile o s)).originals n = some w :=
          capturePhase_originals_mono meshNames _ hw0
        cases hof : o p.1 with
        | some ov =>
          have h2v : (reconcile o s).mats n = some ov := by
            rw [h2]
            simp [overrideResult, hof]
          have h3 : (reconcile o (reconcile o s)).mats n
              = overrideResult (o p.1) (some w) ov :=
            reconcile_mats_located o _ hmemp huniq h2v hw2
          rw [h3, h2v]
          simp [overrideResult, hof]
        | none =>
          have h2v : (reconcile o s).mats n = some w := by
            rw [h2]
            simp [overrideResult, hof]
          have h3 : (reconcile o (reconcile o s)).mats n
              = overrideResult (o p.1) (some w) w :=
            reconcile_mats_located o _ hmemp huniq h2v hw2
          rw [h3, h2v]
          simp [overrideResult, hof]
    · have hns : ∀ q ∈ FRAME_MESH_MAP, q.2 ≠ n := by
        intro q hq hq2
        exact hmem (hq2 ▸ List.mem_map_of_mem Prod.snd hq)
      have hx : ∀ (x : SceneState Mat), (reconcile o x).mats n = x.mats n := by
        intro x
        show (applyPhase o FRAME_MESH_MAP (capturePhase meshNames x)).mats n = x.mats n
        rw [applyPhase_untouched o FRAME_MESH_MAP _ hns, capturePhase_mats]
      rw [hx (reconcile o s)]

/-! ## Helper lemmas about the Spline updateTexture pass -/

theorem texCapture_tex {Tex : Type} (s : TexState Tex) (m : String) (cur : Tex) :
    (texCapture s m cur).tex = s.tex := by
  unfold texCapture
  split <;> rfl

theorem texCapture_warnings {Tex : Type} (s : TexState Tex) (m : String) (cur : Tex) :
    (texCapture s m cur).warnings = s.warnings := by
  unfold texCapture
  split <;> rfl

theorem texCapture_originals_ne {Tex : Type} (s : TexState Tex) {m n : String}
    (cur : Tex) (hne : n ≠ m) :
    (texCapture s m cur).originals n = s.originals n := by
  unfold texCapture
  split
  · simp [setEntry, hne]
  · rfl

theorem texStep_tex_ne {Tex : Type} (derive : String → Tex) (fetchOk : String → Bool)
    (imageMap : String → Option String) (s : TexState Tex) (b : String × String)
    {n : String} (hne : n ≠ b.2) :
    (texStep derive fetchOk imageMap s b).tex n = s.tex n := by
  cases h1 : s.tex b.2 with
  | none => simp [texStep, h1]
  | some cur =>
    cases h2 : imageMap b.1 with
    | some url =>
      cases h3 : fetchOk url with
      | true => simp [texStep, h1, h2, h3, texCapture_tex, setEntry, hne]
      | false => simp [texStep, h1, h2, h3, texCapture_tex]
    | none =>
      cases h4 : (texCapture s b.2 cur).originals b.2 with
      | some od => simp [texStep, h1, h2, h4, texCapture_tex, setEntry, hne]
      | none => simp [texStep, h1, h2, h4, texCapture_tex]

theorem texStep_originals_ne {Tex : Type} (derive : String → Tex)
    (fetchOk : String → Bool) (imageMap : String → Option String)
    (s : TexState Tex) (b : String × String) {n : String} (hne : n ≠ b.2) :
    (texStep derive fetchOk imageMap s b).originals n = s.originals n := by
  cases h1 : s.tex b.2 with
  | none => simp [texStep, h1]
  | some cur =>
    have hcap : (texCapture s b.2 cur).originals n = s.originals n :=
      texCapture_originals_ne s cur hne
    cases h2 : imageMap b.1 with
    | some url =>
      cases h3 : fetchOk url with
      | true => simp [texStep, h1, h2, h3, hcap]
      | false => simp [texStep, h1, h2, h3, hcap]
    | none =>
      cases h4 : (texCapture s b.2 cur).originals b.2 with
      | some od => simp [texStep, h1, h2, h4, hcap]
      | none => simp [texStep, h1, h2, h4, hcap]

theorem texStep_warnings_mono {Tex : Type} (derive : String → Tex)
    (fetchOk : String → Bool) (imageMap : String → Option String)
    (s : TexState Tex) (b : String × String) {w : String}
    (h : w ∈ s.warnings) :
    w ∈ (texStep derive fetchOk imageMap s b).warnings := by
  cases h1 : s.tex b.2 with
  | none => simpa [texStep, h1] using h
  | some cur =>
    cases h2 : imageMap b.1 with
    | some url =>
      cases h3 : fetchOk url with
      | true => simpa [texStep, h1, h2, h3, texCapture_warnings] using h
      | false =>
        simp [texStep, h1, h2, h3, texCapture_warnings]
        exact Or.inl h
    | none =>
      cases h4 : (texCapture s b.2 cur).originals b.2 with
      | some od => simpa [texStep, h1, h2, h4, texCapture_warnings] using h
      | none => simpa [texStep, h1, h2, h4, texCapture_warnings] using h

theorem texFold_warnings_mono {Tex : Type} (derive : String → Tex)
    (fetchOk : String → Bool) (imageMap : String → Option String) {w : String} :
    ∀ (L : List (String × String)) (s : TexState Tex), w ∈ s.warnings →
      w ∈ (L.foldl (texStep derive fetchOk imageMap) s).warnings := by
  intro L
  induction L with
  | nil => intro s h; exact h
  | cons b t ih =>
    intro s h
    exact ih _ (texStep_warnings_mono derive fetchOk imageMap s b h)

theorem texFold_untouched {Tex : Type} (derive : String → Tex)
    (fetchOk : String → Bool) (imageMap : String → Option String) {n : String} :
    ∀ (L : List (String × String)) (s : TexState Tex),
      (∀ q ∈ L, q.2 ≠ n) →
      (L.foldl (texStep derive fetchOk imageMap) s).tex n = s.tex n := by
  intro L
  induction L with
  | nil => intro s _; rfl
  | cons b t ih =>
    intro s hq
    show (t.foldl (texStep derive fetchOk imageMap)
      (texStep derive fetchOk imageMap s b)).tex n = s.tex n
    rw [ih _ (fun q hqt => hq q (List.mem_cons_of_mem b hqt)),
      texStep_tex_ne derive fetchOk imageMap s b
        (fun h => hq b (List.mem_cons_self b t) h.symm)]

theorem texFold_result {Tex : Type} (derive : String → Tex)
    (fetchOk : String → Bool) (imageMap : String → Option String) {f n : String} :
    ∀ (L : List (String × String)) (s : TexState Tex) (c : Tex),
      (f, n) ∈ L → (∀ q ∈ L, q.2 = n → q = (f, n)) → s.tex n = some c →
      (L.foldl (texStep derive fetchOk imageMap) s).tex n
        = texResult derive fetchOk (imageMap f) (s.originals n) c := by
  intro L
  induction L with
  | nil =>
    intro s c hmem _ _
    cases hmem
  | cons b t ih =>
    intro s c hmem huniq hcur
    show (t.foldl (texStep derive fetchOk imageMap)
      (texStep derive fetchOk imageMap s b)).tex n = _
    by_cases hb : b.2 = n
    · have hbfn : b = (f, n) := huniq b (List.mem_cons_self b t) hb
      subst hbfn
      have huniq2 : ∀ q ∈ t, q.2 = n → q = (f, n) :=
        fun q hq hq2 => huniq q (List.mem_cons_of_mem _ hq) hq2
      have hnotouch : (f, n) ∉ t →
          (t.foldl (texStep derive fetchOk imageMap)
            (texStep derive fetchOk imageMap s (f, n))).tex n
          = (texStep derive fetchOk imageMap s (f, n)).tex n := by
        intro hnm
        refine texFold_untouched derive fetchOk imageMap t _ ?_
        intro q hqt hq2
        exact hnm (huniq2 q hqt hq2 ▸ hqt)
      cases h2 : imageMap f with
      | some url =>
        cases h3 : fetchOk url with
        | true =>
          have hstep : (texStep derive fetchOk imageMap s (f, n)).tex n
              = some (derive url) := by
            simp [texStep, hcur, h2, h3, texCapture_tex, setEntry]
          by_cases hmem2 : (f, n) ∈ t
          · rw [ih _ (derive url) hmem2 huniq2 hstep, h2]
            simp [texResult, h3]
          · rw [hnotouch hmem2, hstep]
            simp [texResult, h3]
        | false =>
          have hstep : (texStep derive fetchOk imageMap s (f, n)).tex n = some c := by
            simp [texStep, hcur, h2, h3, texCapture_tex]
          by_cases hmem2 : (f, n) ∈ t
          · rw [ih _ c hmem2 huniq2 hstep, h2]
            simp [texResult, h3]
          · rw [hnotouch hmem2, hstep]
            simp [texResult, h3]
      | none =>
        cases horg0 : s.originals n with
        | some od =>
          have hcapid : texCapture s n c = s := by
            simp [texCapture, horg0]
          have hstep : (texStep derive fetchOk imageMap s (f, n)).tex n = some od := by
            simp [texStep, hcur, h2, hcapid, horg0, setEntry]
          have horig : (texStep derive fetchOk imageMap s (f, n)).originals n
              = some od := by
            simp [texStep, hcur, h2, hcapid, horg0]
          by_cases hmem2 : (f, n) ∈ t
          · rw [ih _ od hmem2 huniq2 hstep, h2, horig]
            simp [texResult]
          · rw [hnotouch hmem2, hstep]
            simp [texResult]
        | none =>
          have hstep : (texStep derive fetchOk imageMap s (f, n)).tex n = some c := by
            simp [texStep, texCapture, hcur, h2, horg0, setEntry]
          have horig : (texStep derive fetchOk imageMap s (f, n)).originals n
              = some c := by
            simp [texStep, texCapture, hcur, h2, horg0, setEntry]
          by_cases hmem2 : (f, n) ∈ t
          · rw [ih _ c hmem2 huniq2 hstep, h2, horig]
            simp [texResult]
          · rw [hnotouch hmem2, hstep]
            simp [texResult]
    · have hmem2 : (f, n) ∈ t := by
        rcases List.mem_cons.mp hmem with h | h
        · exact absurd (by rw [← h]) hb
        · exact h
      have h1 : (texStep derive fetchOk imageMap s b).tex n = some c := by
        rw [texStep_tex_ne derive fetchOk imageMap s b (fun hh => hb hh.symm)]
        exact hcur
      rw [ih _ c hmem2 (fun q hq hq2 => huniq q (List.mem_cons_of_mem _ hq) hq2) h1,
        texStep_originals_ne derive fetchOk imageMap s b (fun hh => hb hh.symm)]

theorem texFold_warning {Tex : Type} (derive : String → Tex)
    (fetchOk : String → Bool) (imageMap : String → Option String)
    {f n u : String} :
    ∀ (L : List (String × String)) (s : TexState Tex) (c : Tex),
      (f, n) ∈ L → (∀ q ∈ L, q.2 = n → q = (f, n)) → s.tex n = some c →
      imageMap f = some u → fetchOk u = false →
      ("updateTexture failed for " ++ n)
        ∈ (L.foldl (texStep derive fetchOk imageMap) s).warnings := by
  intro L
  induction L with
  | nil =>
    intro s c hmem _ _ _ _
    cases hmem
  | cons b t ih =>
    intro s c hmem huniq hcur hurl hfail
    show ("updateTexture failed for " ++ n)
      ∈ (t.foldl (texStep derive fetchOk imageMap)
          (texStep derive fetchOk imageMap s b)).warnings
    by_cases hb : b.2 = n
    · have hbfn : b = (f, n) := huniq b (List.mem_cons_self b t) hb
      subst hbfn
      have hw : ("updateTexture failed for " ++ n)
          ∈ (texStep derive fetchOk imageMap s (f, n)).warnings := by
        simp [texStep, hcur, hurl, hfail, texCapture_warnings]
      exact texFold_warnings_mono derive fetchOk imageMap t _ hw
    · have hmem2 : (f, n) ∈ t := by
        rcases List.mem_cons.mp hmem with h | h
        · exact absurd (by rw [← h]) hb
        · exact h
      have h1 : (texStep derive fetchOk imageMap s b).tex n = some c := by
        rw [texStep_tex_ne derive fetchOk imageMap s b (fun hh => hb hh.symm)]
        exact hcur
      exact ih _ c hmem2
        (fun q hq hq2 => huniq q (List.mem_cons_of_mem _ hq) hq2) h1 hurl hfail

/-! ## Claim theorems: C1, C6 -/

/-- C1 (the code lacks the claimed discard of stale results): with
`set("picture-1", "u1")` followed by `set("picture-1", "u2")` before the
first load resolves, and the two loads completing out of order, the
material finally applied to the slot's mesh is the one derived from the
superseded `u1`, not from the current desired `u2`.  The `TextureLoader`
`onLoad` callback assigns `mesh.material` unconditionally; no in-flight
locator is compared against the slot's current desired locator. -/
theorem stale_load_wins :
    (runEvents exDerive exLoadInit exStaleTrace).mats "Rectangle2" = some "tex:u1" ∧
    some "tex:u1" ≠ some "tex:u2" := by
  constructor
  · rfl
  · decide

/-- C6 counterexample: in the `TextureLoader` path of the Spline-runtime
`App`, a slot whose fetch fails keeps its previous material, but no warning
of any kind is surfaced — the effect installs no error callback and
contains no logging call, so the warning log stays empty, refuting the
claim's "a warning is surfaced to the caller or log" for this code path. -/
theorem texture_loader_no_warning :
    (runEvents exDerive exLoadInit [AsyncEv.eff exMapBad]).mats "Rectangle2"
      = some "orig" ∧
    (runEvents exDerive exLoadInit [AsyncEv.eff exMapBad]).warnings = [] := by
  constructor
  · rfl
  · rfl

/-- C6 (amended): in the Spline `updateTexture` path, a slot whose fetch
fails keeps its previously displayed texture, a warning naming its mesh is
appended to the log, the failure is caught rather than re-thrown (the pass
is a total function on the state), and every other slot is still
processed — a slot whose fetch succeeds receives its decoded texture.  In
the `TextureLoader` path the same holds except that no warning is
surfaced (see the counterexample). -/
theorem fetch_failure_semantics {Tex : Type} (derive : String → Tex)
    (fetchOk : String → Bool) (imageMap : String → Option String)
    (s : TexState Tex) (f m f2 m2 : String) (t0 t2 : Tex) (u u2 : String)
    (hmem : (f, m) ∈ FRAME_MESH_MAP)
    (huniq : ∀ q ∈ FRAME_MESH_MAP, q.2 = m → q = (f, m))
    (hcur : s.tex m = some t0)
    (hurl : imageMap f = some u) (hfail : fetchOk u = false)
    (hmem2 : (f2, m2) ∈ FRAME_MESH_MAP)
    (huniq2 : ∀ q ∈ FRAME_MESH_MAP, q.2 = m2 → q = (f2, m2))
    (hcur2 : s.tex m2 = some t2)
    (hurl2 : imageMap f2 = some u2) (hok : fetchOk u2 = true) :
    (applyOverridesSpline derive fetchOk imageMap s).tex m = some t0 ∧
    ("updateTexture failed for " ++ m)
      ∈ (applyOverridesSpline derive fetchOk imageMap s).warnings ∧
    (applyOverridesSpline derive fetchOk imageMap s).tex m2 = some (derive u2) := by
  refine ⟨?_, ?_, ?_⟩
  · show (FRAME_MESH_MAP.foldl (texStep derive fetchOk imageMap) s).tex m = some t0
    rw [texFold_result derive fetchOk imageMap FRAME_MESH_MAP s t0 hmem huniq hcur,
      hurl]
    simp [texResult, hfail]
  · exact texFold_warning derive fetchOk imageMap FRAME_MESH_MAP s t0
      hmem huniq hcur hurl hfail
  · show (FRAME_MESH_MAP.foldl (texStep derive fetchOk imageMap) s).tex m2
      = some (derive u2)
    rw [texFold_result derive fetchOk imageMap FRAME_MESH_MAP s t2 hmem2 huniq2 hcur2,
      hurl2]
    simp [texResult, hok]

/-- Witness for C6's amended theorem: `picture-1` points at a failing URL,
`picture-2` at a succeeding one. -/
theorem fetch_failure_semantics_witness :
    (applyOverridesSpline exDerive exFetchOk exMapMix exTex).tex "Rectangle2"
      = some "orig-2" ∧
    ("updateTexture failed for " ++ "Rectangle2")
      ∈ (applyOverridesSpline exDerive exFetchOk exMapMix exTex).warnings ∧
    (applyOverridesSpline exDerive exFetchOk exMapMix exTex).tex "Rectangle3"
      = some "tex:good-url" :=
  fetch_failure_semantics exDerive exFetchOk exMapMix exTex
    "picture-1" "Rectangle2" "picture-2" "Rectangle3" "orig-2" "orig-3"
    "bad-url" "good-url"
    (by decide) (by decide) rfl rfl (by decide) (by decide) (by decide) rfl rfl rfl
